import Mathlib

/-!
Formal model of the road-import tool's Linear Road Geometry & Hierarchy Engine
(`utils/country_road_service.py`, `utils/road_track_service.py`).

Python strings are modelled as lists of characters, Python ints as `ℤ`/`ℕ`,
Python floats as `ℚ` (exact arithmetic), raised exceptions as `Except`, and
the remote record-creation sink (HTTP `/create`) as an oracle environment.
-/

/-- Python strings are modelled as lists of characters. -/
abbrev PyStr := List Char

/-- The whitespace characters removed by Python's `str.strip()`. -/
def isPySpace (c : Char) : Bool :=
  c = ' ' || c = '\t' || c = '\n' || c = '\r' || c = '\x0b' || c = '\x0c'

/-- `str.strip()`: drop leading and trailing whitespace. -/
def pyStrip (s : PyStr) : PyStr :=
  ((s.dropWhile isPySpace).reverse.dropWhile isPySpace).reverse

/-- The regex character class for one decimal digit. -/
def isDigitChar (c : Char) : Bool := '0' ≤ c && c ≤ '9'

/-- Numeric value of a decimal digit character. -/
def digitVal (c : Char) : ℕ := c.toNat - 48

/-- Value of a run of decimal digit characters (Python `int` of a regex group). -/
def digitsToNat (ds : PyStr) : ℕ := ds.foldl (fun a c => 10 * a + digitVal c) 0

/-- A greedy digit run at the head of the input (one-or-more-digits regex atom):
its integer value and the remaining input, or `none` when no digit is present. -/
def readDigits (l : PyStr) : Option (ℕ × PyStr) :=
  let ds := l.takeWhile isDigitChar
  if ds.isEmpty then none else some (digitsToNat ds, l.drop ds.length)

/-- `re.match` of the stake pattern `K`, digits, `+`, digits: anchored at the
start only (a prefix match), so trailing characters after the second digit run
are ignored, exactly as `re.match` does. Returns the two captured groups. -/
def matchStake (l : PyStr) : Option (ℕ × ℕ) :=
  match l with
  | 'K' :: rest =>
    match readDigits rest with
    | some (km, '+' :: r2) =>
      match readDigits r2 with
      | some (m, _) => some (km, m)
      | none => none
    | _ => none
  | _ => none

/-- Total linear offset in meters encoded by a stake token, when the pattern
matches: `km * 1000 + m`. -/
def stakeOffset (l : PyStr) : Option ℕ := (matchStake l).map (fun p => p.1 * 1000 + p.2)

/-- The decimal digit character for `d < 10` (Python's integer rendering). -/
def decDigit (d : ℕ) : Char := Char.ofNat (48 + d)

/-- `natDecimalAux fuel n` renders `n` in decimal, most significant digit
first; the fuel (always supplied as `n + 1`, an upper bound on the number of
digits) only makes the recursion structural. -/
def natDecimalAux : ℕ → ℕ → PyStr
  | 0, _ => []
  | fuel + 1, n => if n < 10 then [decDigit n] else natDecimalAux fuel (n / 10) ++ [decDigit (n % 10)]

/-- Decimal rendering of a natural number, Python's `str(n)` / f-string `n`. -/
def natDecimal (n : ℕ) : PyStr := natDecimalAux (n + 1) n

/-- Zero-padding to three digits, Python's format spec `03d`. -/
def pad3 (n : ℕ) : PyStr := List.replicate (3 - (natDecimal n).length) '0' ++ natDecimal n

/-- Rendering of a linear meter offset back into stake notation:
`K`, `m / 1000`, `+`, `m % 1000` zero-padded to three digits. -/
def formatStake (m : ℕ) : PyStr := 'K' :: (natDecimal (m / 1000) ++ '+' :: pad3 (m % 1000))

/-- The distinct `ValueError` raise sites of `parse_stake_range`. -/
inductive StakeRangeError
  | startFormat (s : PyStr)
  | endFormat (s : PyStr)
  | endNotGreater
  | intervalNotPositive
  | intervalTooLarge
deriving DecidableEq, Repr

/-- The segmentation loop of `parse_stake_range`: starting at `current`,
advance by `k` meters, clamping to the end offset `em`, rendering each
boundary pair into stake notation. The fuel (supplied as `em − start`) is an
upper bound on the iteration count, sufficient whenever `k ≥ 1`. -/
def stakeSegLoop : ℕ → ℕ → ℕ → ℕ → List (PyStr × PyStr)
  | 0, _, _, _ => []
  | fuel + 1, k, em, current =>
    if current < em then
      (formatStake current, formatStake (min (current + k) em)) ::
        stakeSegLoop fuel k em (min (current + k) em)
    else []

/-- Numeric mirror of `stakeSegLoop`: the raw meter offsets before rendering. -/
def stakeBoundLoop : ℕ → ℕ → ℕ → ℕ → List (ℕ × ℕ)
  | 0, _, _, _ => []
  | fuel + 1, k, em, current =>
    if current < em then
      (current, min (current + k) em) :: stakeBoundLoop fuel k em (min (current + k) em)
    else []

/-- `CountryRoadService.parse_stake_range`: parse both stake tokens (prefix
regex match on the stripped strings), validate the range and the interval, and
produce the clamped segmentation together with the total length in km. -/
def parse_stake_range (start_stake end_stake : PyStr) (interval : ℤ) :
    Except StakeRangeError (List (PyStr × PyStr) × ℚ) :=
  match matchStake (pyStrip start_stake) with
  | none => .error (.startFormat start_stake)
  | some (skm, sm) =>
    match matchStake (pyStrip end_stake) with
    | none => .error (.endFormat end_stake)
    | some (ekm, em) =>
      let start_total_m := skm * 1000 + sm
      let end_total_m := ekm * 1000 + em
      if end_total_m ≤ start_total_m then .error .endNotGreater
      else
        let total_length_km : ℚ := ((end_total_m : ℚ) - (start_total_m : ℚ)) / 1000
        if interval ≤ 0 then .error .intervalNotPositive
        else if ((end_total_m : ℤ) - (start_total_m : ℤ)) < interval then .error .intervalTooLarge
        else
          .ok (stakeSegLoop (end_total_m - start_total_m) interval.toNat end_total_m start_total_m,
               total_length_km)

/-- The canonical stake notation of the specification: the whole token is `K`,
one or more digits, `+`, one or more digits — nothing before or after. Written
from the spec's words, to be compared with the code's prefix matcher. -/
def isCanonicalStake (l : PyStr) : Bool :=
  match l with
  | 'K' :: rest =>
    match readDigits rest with
    | some (_, '+' :: r2) =>
      match readDigits r2 with
      | some (_, rest2) => rest2.isEmpty
      | none => false
    | _ => false
  | _ => false

instance {ε α : Type} [DecidableEq ε] [DecidableEq α] : DecidableEq (Except ε α) := fun x y =>
  match x, y with
  | .ok a, .ok b =>
    if h : a = b then .isTrue (by rw [h]) else .isFalse (by intro hc; cases hc; exact h rfl)
  | .error a, .error b =>
    if h : a = b then .isTrue (by rw [h]) else .isFalse (by intro hc; cases hc; exact h rfl)
  | .ok _, .error _ => .isFalse (by intro hc; cases hc)
  | .error _, .ok _ => .isFalse (by intro hc; cases hc)

/-- Whether an `Except` value is a success. -/
def exceptIsOk {ε α : Type} (x : Except ε α) : Bool :=
  match x with
  | .ok _ => true
  | .error _ => false

/-- The stake-segment list of a successful `parse_stake_range` call. -/
def okSegments (x : Except StakeRangeError (List (PyStr × PyStr) × ℚ)) :
    Option (List (PyStr × PyStr)) :=
  match x with
  | .ok p => some p.1
  | .error _ => none

/-- One segment record built by `create_road_segments_along_track`
(`road_track_service.py`): interpolated endpoint coordinates, exact length and
cumulative arc distances from the track's start. -/
structure TrackSegment where
  start_coordinate : ℚ × ℚ
  end_coordinate : ℚ × ℚ
  length : ℚ
  start_distance : ℚ
  end_distance : ℚ
deriving DecidableEq, Repr

/-- The `while distance < total_length` loop of
`create_road_segments_along_track`. `total_length` stands for
`LineString(mc_coordinates).length` and `interp` for `line.interpolate`, the
two shapely calls the loop makes; both are determined by the input polyline.
The loop is fueled: `some` means the Python loop terminated within `fuel`
iterations, and `none` that it was still running. -/
def roadSegLoop (interp : ℚ → ℚ × ℚ) (total_length interval : ℚ) :
    ℕ → ℚ → Option (List TrackSegment)
  | 0, distance => if distance < total_length then none else some []
  | fuel + 1, distance =>
    if distance < total_length then
      let start_distance := distance
      let end_distance := min (distance + interval) total_length
      let seg : TrackSegment :=
        { start_coordinate := interp start_distance
          end_coordinate := interp end_distance
          length := end_distance - start_distance
          start_distance := start_distance
          end_distance := end_distance }
      (roadSegLoop interp total_length interval fuel (distance + interval)).map (seg :: ·)
    else some []

/-- `BaiduMercatorRoadTrackGenerator.create_road_segments_along_track`: walk
cumulative arc length from 0, cutting a segment every `interval` meters,
clamping the last cut to the total length. -/
def create_road_segments_along_track (interp : ℚ → ℚ × ℚ) (total_length interval : ℚ)
    (fuel : ℕ) : Option (List TrackSegment) :=
  roadSegLoop interp total_length interval fuel 0

example : okSegments (parse_stake_range "K0+000".toList "K1+280".toList 100) =
    some [("K0+000".toList, "K0+100".toList), ("K0+100".toList, "K0+200".toList),
          ("K0+200".toList, "K0+300".toList), ("K0+300".toList, "K0+400".toList),
          ("K0+400".toList, "K0+500".toList), ("K0+500".toList, "K0+600".toList),
          ("K0+600".toList, "K0+700".toList), ("K0+700".toList, "K0+800".toList),
          ("K0+800".toList, "K0+900".toList), ("K0+900".toList, "K1+000".toList),
          ("K1+000".toList, "K1+100".toList), ("K1+100".toList, "K1+200".toList),
          ("K1+200".toList, "K1+280".toList)] := by decide

/-- Optional company identifiers resolved from the spreadsheet's optional
unit columns (`company_fields` in `process_excel_row`). -/
structure CompanyFields where
  design_com_id : Option ℤ := none
  construction_com_id : Option ℤ := none
  manager_com_id : Option ℤ := none
  owner_com_id : Option ℤ := none
  supervision_com_id : Option ℤ := none
  operation_com_id : Option ℤ := none
deriving DecidableEq, Repr

/-- The per-side segment lists of the track generator's result dictionary
(`left_segments` / `right_segments`, present when markers were requested). -/
structure TrackResult where
  left_segments : List TrackSegment := []
  right_segments : List TrackSegment := []
deriving DecidableEq, Repr

/-- The `processed_data` dictionary built by `process_excel_row`: resolved
identifiers, parsed stake segmentation and track geometry for one row.
`interval` and `road_width` are optional because the assembler reads them with
`dict.get` defaults. `drive_direction_values` is an insertion-ordered dict,
modelled as an association list. -/
structure RoadData where
  project_id : ℤ
  tenant_id : ℤ
  name : PyStr
  lane_count : ℕ
  road_type : PyStr
  stake_segments : List (PyStr × PyStr)
  total_length : ℚ
  structure_name : PyStr
  drive_direction_values : List (PyStr × PyStr)
  maintenance_start : ℤ
  maintenance_end : ℤ
  interval : Option ℤ := none
  road_width : Option ℚ := none
  company_fields : CompanyFields := {}
  district_id : Option ℤ := none
  track_result : TrackResult := {}
deriving DecidableEq, Repr

/-- Failure cases of `get_segment_coordinates` (both raised as `ValueError`). -/
inductive SegCoordError
  | unknownDirection (label : PyStr)
  | indexOutOfRange (idx n : ℕ)
deriving DecidableEq, Repr

/-- The string constant "left_track" of the direction-mapping table. -/
def leftTrackStr : PyStr := "left_track".toList

/-- `CountryRoadService.get_segment_coordinates`: map the direction label
through the configured table (`direction_mapping`), pick that side's segment
list (anything other than "left_track" selects the right side), and index it.
A missing or falsy mapping and an out-of-range index raise `ValueError`. -/
def get_segment_coordinates (direction_mapping : List (PyStr × PyStr)) (tr : TrackResult)
    (direction_label : PyStr) (segment_index : ℕ) : Except SegCoordError TrackSegment :=
  match List.lookup direction_label direction_mapping with
  | none => .error (.unknownDirection direction_label)
  | some track_type =>
    if track_type.isEmpty then .error (.unknownDirection direction_label)
    else
      let segments := if track_type = leftTrackStr then tr.left_segments else tr.right_segments
      if h : segment_index < segments.length then .ok (segments.get ⟨segment_index, h⟩)
      else .error (.indexOutOfRange segment_index segments.length)

/-- The single-feature line geometry built by `coordinates_to_geojson`:
a two-point LineString and its length converted to kilometers. -/
structure GeoJson where
  coordinates : List (ℚ × ℚ)
  length_km : ℚ
deriving DecidableEq, Repr

/-- `CountryRoadService.coordinates_to_geojson`. -/
def coordinates_to_geojson (start_coord end_coord : ℚ × ℚ) (length_meters : ℚ) : GeoJson :=
  { coordinates := [start_coord, end_coord], length_km := length_meters / 1000 }

/-- Python truthiness filter used on optional ids: `if dict.get(key):` treats
both a missing value and the integer 0 as absent. -/
def truthy (o : Option ℤ) : Option ℤ :=
  match o with
  | some v => if v = 0 then none else some v
  | none => none

/-- The request body of `create_road_level1`. -/
structure Level1Payload where
  name : PyStr
  length : ℚ
  ext3 : PyStr
  administerFlag : Bool
  hierarchy : ℕ
  ext1 : PyStr
deriving DecidableEq, Repr

/-- The payload construction of `CountryRoadService.create_road_level1`. -/
def create_road_level1_payload (road_data : RoadData) : Level1Payload :=
  { name := road_data.name
    length := road_data.total_length
    ext3 := natDecimal road_data.lane_count
    administerFlag := true
    hierarchy := 1
    ext1 := road_data.road_type }

/-- The request body of `create_road_level2`. -/
structure Level2Payload where
  name : PyStr
  parentId : ℤ
  length : ℤ
  administerFlag : Bool
  hierarchy : ℕ
  segmentStartId : PyStr
  segmentEndId : PyStr
  optStartDate : ℤ
  optEndDate : ℤ
  ext2 : PyStr
  managerCom : Option ℤ := none
  ownerCom : Option ℤ := none
  supervisionCom : Option ℤ := none
  operationCom : Option ℤ := none
  designerCom : Option ℤ := none
  constructionCom : Option ℤ := none
  district : Option ℤ := none
deriving DecidableEq, Repr

/-- The payload construction of `CountryRoadService.create_road_level2`.
The `length` field is `road_data.get("interval", 100)` — the configured
interval (default 100), not the segment's own station length. -/
def create_road_level2_payload (road_data : RoadData) (parent_id : ℤ)
    (segment_start segment_end : PyStr) : Level2Payload :=
  let segment_length := road_data.interval.getD 100
  { name := segment_start ++ '-' :: segment_end
    parentId := parent_id
    length := segment_length
    administerFlag := true
    hierarchy := 2
    segmentStartId := segment_start
    segmentEndId := segment_end
    optStartDate := road_data.maintenance_start
    optEndDate := road_data.maintenance_end
    ext2 := road_data.structure_name
    managerCom := truthy road_data.company_fields.manager_com_id
    ownerCom := truthy road_data.company_fields.owner_com_id
    supervisionCom := truthy road_data.company_fields.supervision_com_id
    operationCom := truthy road_data.company_fields.operation_com_id
    designerCom := truthy road_data.company_fields.design_com_id
    constructionCom := truthy road_data.company_fields.construction_com_id
    district := truthy road_data.district_id }

/-- The request body of `create_road_level3`. -/
structure Level3Payload where
  name : PyStr
  parentId : ℤ
  ext3 : PyStr
  administerFlag : Bool
  hierarchy : ℕ
  segmentStartId : PyStr
  segmentEndId : PyStr
  driveDirection : PyStr
  width : ℚ
  geojson : Option GeoJson := none
deriving DecidableEq, Repr

/-- The payload construction of `CountryRoadService.create_road_level3`:
lane count is `max(1, lane_count // 2)`, width is `road_width / 2` (with the
`dict.get` default 10.0), and the GeoJSON attachment is skipped — not a
failure — when the segment-coordinate lookup raises. -/
def create_road_level3_payload (direction_mapping : List (PyStr × PyStr))
    (road_data : RoadData) (parent_id : ℤ) (segment_start segment_end : PyStr)
    (direction : PyStr) (segment_index : ℕ) : Level3Payload :=
  let level3_lane_count := max 1 (road_data.lane_count / 2)
  let road_width := road_data.road_width.getD 10 / 2
  let geojson :=
    match get_segment_coordinates direction_mapping road_data.track_result direction
        segment_index with
    | .ok seg => some (coordinates_to_geojson seg.start_coordinate seg.end_coordinate seg.length)
    | .error _ => none
  { name := '(' :: direction ++ ')' :: segment_start ++ '-' :: segment_end
    parentId := parent_id
    ext3 := natDecimal level3_lane_count
    administerFlag := true
    hierarchy := 3
    segmentStartId := segment_start
    segmentEndId := segment_end
    driveDirection := (List.lookup direction road_data.drive_direction_values).getD []
    width := road_width
    geojson := geojson }

/-- The external record-creation sink and configuration seen by the assembler:
`createLevelN` model the HTTP `/create` calls (success returns the new id,
failure carries the upstream message), `direction_mapping` the loaded
configuration table. -/
structure Env where
  direction_mapping : List (PyStr × PyStr)
  createLevel1 : Level1Payload → Except PyStr ℤ
  createLevel2 : Level2Payload → Except PyStr ℤ
  createLevel3 : Level3Payload → Except PyStr ℤ

/-- One node-creation request emitted during assembly (the I/O trace). -/
inductive Request
  | l1 (p : Level1Payload)
  | l2 (p : Level2Payload)
  | l3 (p : Level3Payload)
deriving DecidableEq, Repr

/-- Whether a request is a level-1 creation. -/
def Request.isL1 : Request → Bool
  | .l1 _ => true
  | _ => false

/-- Whether a request is a level-2 creation. -/
def Request.isL2 : Request → Bool
  | .l2 _ => true
  | _ => false

/-- Whether a request is a level-3 creation. -/
def Request.isL3 : Request → Bool
  | .l3 _ => true
  | _ => false

/-- The level-3 payloads of a trace, in order. -/
def traceL3 (tr : List Request) : List Level3Payload :=
  tr.filterMap (fun r => match r with | .l3 p => some p | _ => none)

/-- The level-2 payloads of a trace, in order. -/
def traceL2 (tr : List Request) : List Level2Payload :=
  tr.filterMap (fun r => match r with | .l2 p => some p | _ => none)

/-- The error strings accumulated in `results["errors"]`, tagged by the site
that formatted them. -/
inductive NetErr
  | level1Failed (msg : PyStr)
  | level2Failed (segment_start segment_end : PyStr) (msg : PyStr)
  | level3Failed (direction : PyStr) (msg : PyStr)
deriving DecidableEq, Repr

/-- Whether an error was recorded by the level-2 `except` clause. -/
def NetErr.isLevel2 : NetErr → Bool
  | .level2Failed _ _ _ => true
  | _ => false

/-- Whether an error was recorded by the level-3 `except` clause. -/
def NetErr.isLevel3 : NetErr → Bool
  | .level3Failed _ _ => true
  | _ => false

/-- The `results` dictionary of `create_road_network`. -/
structure NetworkResult where
  road_name : PyStr
  level1_id : Option ℤ
  level2_ids : List ℤ
  level3_ids : List ℤ
  errors : List NetErr
deriving DecidableEq, Repr

/-- The dedup table `created_level1_roads`: corridor name to level-1 id.
Python dict update is modelled by consing (newest binding first). -/
abbrev Level1Table := List (PyStr × ℤ)

/-- The inner direction loop of `create_road_network`: for each direction
label (in dict order), build a level-3 payload — the first label keeps the
segment's station bounds, every later label swaps them — request creation, and
either record the id or record a level-3 error and continue. Returns
(level3 ids, errors, requests). -/
def processDirections (env : Env) (road_data : RoadData) (level2_id : ℤ)
    (segment_start segment_end : PyStr) (segment_index : ℕ) :
    List (PyStr × PyStr) → ℕ → List ℤ × List NetErr × List Request
  | [], _ => ([], [], [])
  | (direction_label, _) :: rest, idx =>
    let start_stake := if idx = 0 then segment_start else segment_end
    let end_stake := if idx = 0 then segment_end else segment_start
    let p3 := create_road_level3_payload env.direction_mapping road_data level2_id
      start_stake end_stake direction_label segment_index
    let (ids, errs, reqs) :=
      processDirections env road_data level2_id segment_start segment_end segment_index
        rest (idx + 1)
    match env.createLevel3 p3 with
    | .ok id3 => (id3 :: ids, errs, .l3 p3 :: reqs)
    | .error e => (ids, .level3Failed direction_label e :: errs, .l3 p3 :: reqs)

/-- The per-segment loop of `create_road_network` (enumerate from 1): create
the level-2 node for the segment; on success run the direction loop with
segment index `segment_idx − 1`; on failure record a level-2 error — in both
cases continue with the remaining segments. Returns
(level2 ids, level3 ids, errors, requests). -/
def processSegments (env : Env) (road_data : RoadData) (level1_id : ℤ) :
    List (PyStr × PyStr) → ℕ → List ℤ × List ℤ × List NetErr × List Request
  | [], _ => ([], [], [], [])
  | (segment_start, segment_end) :: rest, segment_idx =>
    let p2 := create_road_level2_payload road_data level1_id segment_start segment_end
    let (l2s, l3s, errs, reqs) := processSegments env road_data level1_id rest (segment_idx + 1)
    match env.createLevel2 p2 with
    | .ok id2 =>
      let (ids3, errs3, reqs3) :=
        processDirections env road_data id2 segment_start segment_end (segment_idx - 1)
          road_data.drive_direction_values 0
      (id2 :: l2s, ids3 ++ l3s, errs3 ++ errs, .l2 p2 :: (reqs3 ++ reqs))
    | .error e =>
      (l2s, l3s, .level2Failed segment_start segment_end e :: errs, .l2 p2 :: reqs)

/-- `CountryRoadService.create_road_network`: reuse the corridor's level-1 id
from the dedup table or create and record a new one; an exception there ends
the corridor's assembly with a level-1 error and no further requests;
otherwise run the segment loop. Returns the updated dedup table, the
`NetworkResult`, and the trace of creation requests. -/
def create_road_network (env : Env) (table : Level1Table) (road_data : RoadData) :
    Level1Table × NetworkResult × List Request :=
  match List.lookup road_data.name table with
  | some level1_id =>
    let (l2s, l3s, errs, reqs) :=
      processSegments env road_data level1_id road_data.stake_segments 1
    (table,
     { road_name := road_data.name, level1_id := some level1_id,
       level2_ids := l2s, level3_ids := l3s, errors := errs },
     reqs)
  | none =>
    let p1 := create_road_level1_payload road_data
    match env.createLevel1 p1 with
    | .ok level1_id =>
      let (l2s, l3s, errs, reqs) :=
        processSegments env road_data level1_id road_data.stake_segments 1
      ((road_data.name, level1_id) :: table,
       { road_name := road_data.name, level1_id := some level1_id,
         level2_ids := l2s, level3_ids := l3s, errors := errs },
       .l1 p1 :: reqs)
    | .error e =>
      (table,
       { road_name := road_data.name, level1_id := none,
         level2_ids := [], level3_ids := [], errors := [.level1Failed e] },
       [.l1 p1])

/-- One entry of the batch error list: either a row that raised during data
processing or network assembly errors copied from a row's result. -/
inductive ImportErr
  | rowFailed (row_index : ℕ) (msg : PyStr)
  | net (e : NetErr)
deriving DecidableEq, Repr

/-- The `results` dictionary of `process_country_road_import`. -/
structure ImportResult where
  success : Bool
  total_rows : ℕ
  processed_rows : ℕ
  failed_rows : ℕ
  road_results : List NetworkResult
  errors : List ImportErr
deriving DecidableEq, Repr

/-- The row loop of `process_country_road_import`. Each list element is the
outcome of `process_excel_row` for that spreadsheet row (`.error` when it
raised; its lookups and parsing are external collaborators). A row whose
network result has a non-empty error list counts as failed, otherwise as
processed. Returns (table, processed, failed, results, errors). -/
def importRows (env : Env) :
    List (Except PyStr RoadData) → Level1Table → ℕ →
    Level1Table × ℕ × ℕ × List NetworkResult × List ImportErr
  | [], table, _ => (table, 0, 0, [], [])
  | row :: rest, table, idx =>
    match row with
    | .error e =>
      let (t, p, f, rs, es) := importRows env rest table (idx + 1)
      (t, p, f + 1, rs, .rowFailed (idx + 3) e :: es)
    | .ok road_data =>
      let (table1, road_result, _) := create_road_network env table road_data
      let (t, p, f, rs, es) := importRows env rest table1 (idx + 1)
      if road_result.errors.isEmpty then
        (t, p + 1, f, road_result :: rs, es)
      else
        (t, p, f + 1, road_result :: rs, (road_result.errors.map ImportErr.net) ++ es)

/-- `CountryRoadService.process_country_road_import`, after field validation:
clear the dedup table, process each row in order, and report the counts.
`success` is false exactly when some row failed. -/
def process_country_road_import (env : Env) (rows : List (Except PyStr RoadData)) :
    ImportResult :=
  let (_, p, f, rs, es) := importRows env rows [] 0
  { success := f = 0
    total_rows := rows.length
    processed_rows := p
    failed_rows := f
    road_results := rs
    errors := es }

/-- A sample environment in which every creation call succeeds with a fixed
id per level (used to instantiate the assembler theorems). -/
def okEnv : Env :=
  { direction_mapping := [("东侧".toList, "right_track".toList), ("西侧".toList, leftTrackStr)]
    createLevel1 := fun _ => .ok 101
    createLevel2 := fun _ => .ok 202
    createLevel3 := fun _ => .ok 303 }

/-- A sample environment whose level-3 creation always fails. -/
def l3FailEnv : Env :=
  { direction_mapping := [("东侧".toList, "right_track".toList), ("西侧".toList, leftTrackStr)]
    createLevel1 := fun _ => .ok 101
    createLevel2 := fun _ => .ok 202
    createLevel3 := fun _ => .error "boom".toList }

/-- Sample processed corridor data: three lanes, two directions, two stake
segments (the second the 80 m remainder of the K1+100–K1+280 range). -/
def sampleData : RoadData :=
  { project_id := 1
    tenant_id := 2
    name := "乡道一号".toList
    lane_count := 3
    road_type := "X".toList
    stake_segments := [("K1+100".toList, "K1+200".toList), ("K1+200".toList, "K1+280".toList)]
    total_length := 1
    structure_name := "S".toList
    drive_direction_values := [("东侧".toList, "1".toList), ("西侧".toList, "2".toList)]
    maintenance_start := 0
    maintenance_end := 1
    interval := some 100
    road_width := some 12 }

/-! ### Lemmas about the stake segmentation loop -/

theorem stakeSegLoop_eq_map (k em : ℕ) :
    ∀ fuel cur, stakeSegLoop fuel k em cur =
      (stakeBoundLoop fuel k em cur).map (fun p => (formatStake p.1, formatStake p.2)) := by
  intro fuel
  induction fuel with
  | zero => intro cur; rfl
  | succ n ih =>
    intro cur
    simp only [stakeSegLoop, stakeBoundLoop]
    split
    · simp [ih]
    · rfl

theorem stakeBoundLoop_of_le (k em : ℕ) (fuel cur : ℕ) (h : em ≤ cur) :
    stakeBoundLoop fuel k em cur = [] := by
  cases fuel with
  | zero => rfl
  | succ n => simp [stakeBoundLoop, Nat.not_lt.mpr h]

theorem stakeBoundLoop_length (k em : ℕ) (hk : 0 < k) :
    ∀ fuel cur, em - cur ≤ fuel →
      (stakeBoundLoop fuel k em cur).length = (em - cur + k - 1) / k := by
  intro fuel
  induction fuel with
  | zero =>
    intro cur h
    rw [stakeBoundLoop_of_le k em 0 cur (by omega), (by omega : em - cur = 0)]
    simp only [List.length_nil]
    exact (Nat.div_eq_of_lt (by omega)).symm
  | succ n ih =>
    intro cur h
    by_cases hlt : cur < em
    · simp only [stakeBoundLoop, if_pos hlt, List.length_cons]
      by_cases hin : cur + k ≤ em
      · have hmin : min (cur + k) em = cur + k := by omega
        rw [hmin, ih (cur + k) (by omega)]
        have h1 : em - (cur + k) + k - 1 = em - cur - 1 := by omega
        have h2 : em - cur + k - 1 = (em - cur - 1) + k := by omega
        rw [h1, h2, Nat.add_div_right _ hk]
      · have hmin : min (cur + k) em = em := by omega
        have hlo : 1 * k ≤ em - cur + k - 1 := by omega
        have hhi : em - cur + k - 1 < (1 + 1) * k := by omega
        rw [hmin, stakeBoundLoop_of_le k em n em (le_refl em),
          Nat.div_eq_of_lt_le hlo hhi]
        simp
    · rw [stakeBoundLoop_of_le k em (n + 1) cur (by omega), (by omega : em - cur = 0)]
      simp only [List.length_nil]
      exact (Nat.div_eq_of_lt (by omega)).symm

theorem stakeBoundLoop_head (k em : ℕ) (hk : 0 < k) (fuel cur : ℕ)
    (h : em - cur ≤ fuel) (hlt : cur < em) :
    (stakeBoundLoop fuel k em cur).head? = some (cur, min (cur + k) em) := by
  cases fuel with
  | zero => omega
  | succ n => simp [stakeBoundLoop, hlt]

theorem stakeBoundLoop_getLast (k em : ℕ) (hk : 0 < k) :
    ∀ fuel cur, em - cur ≤ fuel → cur < em →
      ((stakeBoundLoop fuel k em cur).getLast?).map Prod.snd = some em := by
  intro fuel
  induction fuel with
  | zero => intro cur h hlt; omega
  | succ n ih =>
    intro cur h hlt
    simp only [stakeBoundLoop, if_pos hlt]
    by_cases hme : min (cur + k) em < em
    · have hn : em - min (cur + k) em ≤ n := by omega
      have hh := stakeBoundLoop_head k em hk n (min (cur + k) em) hn hme
      rcases hr : stakeBoundLoop n k em (min (cur + k) em) with _ | ⟨y, ys⟩
      · rw [hr] at hh; simp at hh
      · rw [List.getLast?_cons_cons]
        have := ih (min (cur + k) em) hn hme
        rw [hr] at this
        exact this
    · have hm : min (cur + k) em = em := by omega
      rw [stakeBoundLoop_of_le k em n (min (cur + k) em) (by omega)]
      simp [hm]

theorem stakeBoundLoop_chain (k em : ℕ) (hk : 0 < k) :
    ∀ fuel cur, em - cur ≤ fuel →
      List.Chain' (fun p q : ℕ × ℕ => p.2 = q.1) (stakeBoundLoop fuel k em cur) := by
  intro fuel
  induction fuel with
  | zero => intro cur h; simp [stakeBoundLoop]
  | succ n ih =>
    intro cur h
    by_cases hlt : cur < em
    · simp only [stakeBoundLoop, if_pos hlt]
      rw [List.chain'_cons']
      constructor
      · intro b hb
        by_cases hme : min (cur + k) em < em
        · rw [stakeBoundLoop_head k em hk n (min (cur + k) em) (by omega) hme] at hb
          cases hb
          rfl
        · rw [stakeBoundLoop_of_le k em n (min (cur + k) em) (by omega)] at hb
          simp at hb
      · exact ih (min (cur + k) em) (by omega)
    · rw [stakeBoundLoop_of_le k em (n + 1) cur (by omega)]
      simp

theorem stakeBoundLoop_mem (k em : ℕ) (hk : 0 < k) :
    ∀ fuel cur, ∀ p ∈ stakeBoundLoop fuel k em cur, p.1 < p.2 ∧ p.2 - p.1 ≤ k := by
  intro fuel
  induction fuel with
  | zero => intro cur p hp; simp [stakeBoundLoop] at hp
  | succ n ih =>
    intro cur p hp
    by_cases hlt : cur < em
    · simp only [stakeBoundLoop, if_pos hlt, List.mem_cons] at hp
      rcases hp with rfl | hp
      · constructor <;> simp <;> omega
      · exact ih (min (cur + k) em) p hp
    · rw [stakeBoundLoop_of_le k em (n + 1) cur (by omega)] at hp
      simp at hp

/-! ### Claim C1 — the Station Parser tiles the stake range -/

/-- C1: for every valid input (start stake, end stake, interval) with
end offset > start offset and 0 < interval ≤ end − start, `parse_stake_range`
returns exactly ⌈(end − start)/interval⌉ segments (the Nat formula
`(end − start + interval − 1) / interval`), whose numeric boundaries tile
[start, end]: the first segment starts at the start offset, each segment ends
where the next begins, the last ends at the end offset, and every segment is
nonempty and no longer than the interval; in particular
`parse_stake_range("K0+000", "K1+280", 100)` yields 13 segments, the last
being K1+200 → K1+280. -/
theorem claim_C1 (s e : PyStr) (k : ℤ) (sm em : ℕ)
    (hs : stakeOffset (pyStrip s) = some sm)
    (he : stakeOffset (pyStrip e) = some em)
    (hlt : sm < em) (hk : 0 < k) (hki : k ≤ (em : ℤ) - (sm : ℤ)) :
    (∃ L : ℚ, parse_stake_range s e k =
      .ok ((stakeBoundLoop (em - sm) k.toNat em sm).map
        (fun p => (formatStake p.1, formatStake p.2)), L)) ∧
    (stakeBoundLoop (em - sm) k.toNat em sm).length = (em - sm + k.toNat - 1) / k.toNat ∧
    ((stakeBoundLoop (em - sm) k.toNat em sm).head?).map Prod.fst = some sm ∧
    ((stakeBoundLoop (em - sm) k.toNat em sm).getLast?).map Prod.snd = some em ∧
    List.Chain' (fun p q => p.2 = q.1) (stakeBoundLoop (em - sm) k.toNat em sm) ∧
    (∀ p ∈ stakeBoundLoop (em - sm) k.toNat em sm, p.1 < p.2 ∧ p.2 - p.1 ≤ k.toNat) ∧
    (∃ l, okSegments (parse_stake_range "K0+000".toList "K1+280".toList 100) = some l ∧
      l.length = 13 ∧ l.getLast? = some ("K1+200".toList, "K1+280".toList)) := by
  have hkn : 0 < k.toNat := by omega
  rcases hms : matchStake (pyStrip s) with _ | ⟨skm, smm⟩
  · rw [stakeOffset, hms] at hs; simp at hs
  · rcases hme2 : matchStake (pyStrip e) with _ | ⟨ekm, emm⟩
    · rw [stakeOffset, hme2] at he; simp at he
    · rw [stakeOffset, hms] at hs
      rw [stakeOffset, hme2] at he
      simp only [Option.map_some', Option.some.injEq] at hs he
      subst hs
      subst he
      refine ⟨⟨((ekm * 1000 + emm : ℚ) - (skm * 1000 + smm : ℚ)) / 1000, ?_⟩,
        stakeBoundLoop_length k.toNat _ hkn _ _ (le_refl _), ?_, ?_, ?_, ?_, ?_⟩
      · have h1 : ¬ (ekm * 1000 + emm ≤ skm * 1000 + smm) := by omega
        have h2 : ¬ (k ≤ 0) := by omega
        have h3 : ¬ (((ekm * 1000 + emm : ℕ) : ℤ) - ((skm * 1000 + smm : ℕ) : ℤ) < k) := by
          omega
        simp only [parse_stake_range, hms, hme2, if_neg h1, if_neg h2, if_neg h3,
          stakeSegLoop_eq_map]
        push_cast
        ring_nf
      · rw [stakeBoundLoop_head k.toNat _ hkn _ _ (le_refl _) hlt]
        rfl
      · exact stakeBoundLoop_getLast k.toNat _ hkn _ _ (le_refl _) hlt
      · exact stakeBoundLoop_chain k.toNat _ hkn _ _ (le_refl _)
      · exact stakeBoundLoop_mem k.toNat _ hkn _ _
      · exact ⟨[("K0+000".toList, "K0+100".toList), ("K0+100".toList, "K0+200".toList),
          ("K0+200".toList, "K0+300".toList), ("K0+300".toList, "K0+400".toList),
          ("K0+400".toList, "K0+500".toList), ("K0+500".toList, "K0+600".toList),
          ("K0+600".toList, "K0+700".toList), ("K0+700".toList, "K0+800".toList),
          ("K0+800".toList, "K0+900".toList), ("K0+900".toList, "K1+000".toList),
          ("K1+000".toList, "K1+100".toList), ("K1+100".toList, "K1+200".toList),
          ("K1+200".toList, "K1+280".toList)], by decide, by decide, by decide⟩

/-- Witness for C1 at the spec's own example. -/
theorem claim_C1_witness :
    ((stakeBoundLoop 1280 100 1280 0).getLast?).map Prod.snd = some 1280 :=
  (claim_C1 ("K0+000".toList) ("K1+280".toList) 100 0 1280 (by decide) (by decide)
    (by decide) (by decide) (by decide)).2.2.2.1

/-! ### Claim C5 — stake-format acceptance -/

/-- C5 counterexample: "K0+000abc" is not in canonical K+m notation, yet
`parse_stake_range` accepts it (the regex is applied with `re.match`, a prefix
match), refuting the claim that every non-canonical token fails. -/
theorem claim_C5_counterexample :
    isCanonicalStake ("K0+000abc".toList) = false ∧
    exceptIsOk (parse_stake_range ("K0+000abc".toList) ("K1+280".toList) 100) = true := by
  decide

/-- C5 as amended: the parser only requires the stripped token to begin with
`K`, digits, `+`, digits; a token without such a prefix fails with the
start-format (resp. end-format) error, while trailing characters after the
matched prefix are ignored. -/
theorem claim_C5_amended (s e : PyStr) (k : ℤ) :
    (matchStake (pyStrip s) = none →
      parse_stake_range s e k = .error (.startFormat s)) ∧
    (matchStake (pyStrip e) = none → ∀ r, parse_stake_range s e k ≠ .ok r) := by
  constructor
  · intro h
    simp [parse_stake_range, h]
  · intro h r
    rcases hms : matchStake (pyStrip s) with _ | ⟨skm, smm⟩
    · simp [parse_stake_range, hms]
    · simp [parse_stake_range, hms, h]

/-- Witness for the amended C5. -/
theorem claim_C5_witness :
    parse_stake_range ("hello".toList) ("K1+280".toList) 100 =
      .error (.startFormat ("hello".toList)) :=
  (claim_C5_amended ("hello".toList) ("K1+280".toList) 100).1 (by decide)

/-- Any valid stake range and interval makes `parse_stake_range` succeed with
the rendered clamped segmentation (shared between several claims). -/
theorem parse_stake_range_valid (s e : PyStr) (k : ℤ) (sm em : ℕ)
    (hs : stakeOffset (pyStrip s) = some sm)
    (he : stakeOffset (pyStrip e) = some em)
    (hlt : sm < em) (hk : 0 < k) (hki : k ≤ (em : ℤ) - (sm : ℤ)) :
    parse_stake_range s e k =
      .ok ((stakeBoundLoop (em - sm) k.toNat em sm).map
        (fun p => (formatStake p.1, formatStake p.2)), ((em : ℚ) - (sm : ℚ)) / 1000) := by
  rcases hms : matchStake (pyStrip s) with _ | ⟨skm, smm⟩
  · rw [stakeOffset, hms] at hs; simp at hs
  · rcases hme2 : matchStake (pyStrip e) with _ | ⟨ekm, emm⟩
    · rw [stakeOffset, hme2] at he; simp at he
    · rw [stakeOffset, hms] at hs
      rw [stakeOffset, hme2] at he
      simp only [Option.map_some', Option.some.injEq] at hs he
      subst hs
      subst he
      have h1 : ¬ (ekm * 1000 + emm ≤ skm * 1000 + smm) := by omega
      have h2 : ¬ (k ≤ 0) := by omega
      have h3 : ¬ (((ekm * 1000 + emm : ℕ) : ℤ) - ((skm * 1000 + smm : ℕ) : ℤ) < k) := by
        omega
      simp only [parse_stake_range, hms, hme2, if_neg h1, if_neg h2, if_neg h3,
        stakeSegLoop_eq_map]

/-! ### Lemmas about the arc-length segmentation loop -/

theorem roadSegLoop_stop (interp : ℚ → ℚ × ℚ) (total i : ℚ) (fuel : ℕ) (d : ℚ)
    (h : ¬ d < total) : roadSegLoop interp total i fuel d = some [] := by
  cases fuel <;> simp [roadSegLoop, h]

theorem roadSegLoop_props (interp : ℚ → ℚ × ℚ) (total i : ℚ) (hi : 0 < i) :
    ∀ fuel (d : ℚ) segs, roadSegLoop interp total i fuel d = some segs →
      (∀ s0, segs.head? = some s0 → s0.start_distance = d) ∧
      List.Chain' (fun a b => a.end_distance = b.start_distance) segs ∧
      (∀ s ∈ segs, s.length = s.end_distance - s.start_distance ∧ 0 < s.length ∧
        s.length ≤ i) ∧
      (segs.map TrackSegment.length).sum = (if d < total then total - d else 0) := by
  intro fuel
  induction fuel with
  | zero =>
    intro d segs h
    by_cases hd : d < total
    · simp [roadSegLoop, hd] at h
    · simp only [roadSegLoop, if_neg hd, Option.some.injEq] at h
      subst h
      simp [hd]
  | succ n ih =>
    intro d segs h
    by_cases hd : d < total
    · simp only [roadSegLoop, if_pos hd] at h
      rcases Option.map_eq_some'.mp h with ⟨rest, hr, hrest⟩
      subst hrest
      obtain ⟨ihHead, ihChain, ihMem, ihSum⟩ := ih (d + i) rest hr
      refine ⟨?_, ?_, ?_, ?_⟩
      · intro s0 hs0
        simp only [List.head?_cons, Option.some.injEq] at hs0
        subst hs0
        rfl
      · rw [List.chain'_cons']
        refine ⟨?_, ihChain⟩
        intro b hb
        have hne : rest ≠ [] := by
          intro h0
          rw [h0] at hb
          simp at hb
        have hdi : d + i < total := by
          by_contra hcon
          rw [roadSegLoop_stop interp total i n (d + i) hcon] at hr
          injection hr with h2
          exact hne h2.symm
        have := ihHead b hb
        show min (d + i) total = b.start_distance
        rw [this, min_eq_left hdi.le]
      · intro s hs
        rcases List.mem_cons.mp hs with rfl | hs
        · refine ⟨rfl, ?_, ?_⟩
          · show 0 < min (d + i) total - d
            have : d < min (d + i) total := lt_min (by linarith) hd
            linarith
          · show min (d + i) total - d ≤ i
            have : min (d + i) total ≤ d + i := min_le_left _ _
            linarith
        · exact ihMem s hs
      · simp only [List.map_cons, List.sum_cons, ihSum, if_pos hd]
        by_cases hdi : d + i < total
        · rw [if_pos hdi]
          show min (d + i) total - d + (total - (d + i)) = total - d
          rw [min_eq_left hdi.le]
          ring
        · rw [if_neg hdi]
          show min (d + i) total - d + 0 = total - d
          rw [min_eq_right (not_lt.mp hdi)]
          ring
    · rw [roadSegLoop_stop interp total i (n + 1) d hd] at h
      cases h
      simp [hd]

theorem roadSegLoop_diverges (interp : ℚ → ℚ × ℚ) (total i : ℚ) (hi : i ≤ 0) :
    ∀ fuel (d : ℚ), d < total → roadSegLoop interp total i fuel d = none := by
  intro fuel
  induction fuel with
  | zero => intro d hd; simp [roadSegLoop, hd]
  | succ n ih =>
    intro d hd
    simp only [roadSegLoop, if_pos hd]
    rw [ih (d + i) (by linarith)]
    rfl

theorem roadSegLoop_terminates (interp : ℚ → ℚ × ℚ) (total i : ℚ) (hi : 0 < i) :
    ∀ (fuel : ℕ) (d : ℚ), total ≤ d + (fuel : ℚ) * i →
      ∃ segs, roadSegLoop interp total i fuel d = some segs := by
  intro fuel
  induction fuel with
  | zero =>
    intro d h
    refine ⟨[], roadSegLoop_stop interp total i 0 d ?_⟩
    push_cast at h
    linarith
  | succ n ih =>
    intro d h
    by_cases hd : d < total
    · obtain ⟨segs, hsegs⟩ := ih (d + i) (by push_cast at h ⊢; linarith)
      exact ⟨_, by simp only [roadSegLoop, if_pos hd, hsegs]; rfl⟩
    · exact ⟨[], roadSegLoop_stop interp total i (n + 1) d hd⟩

theorem natCeil_add_one_of (q : ℚ) (h : -1 < q) : ⌈q + 1⌉₊ = ⌈q⌉₊ + 1 := by
  rcases le_or_lt 0 q with hq | hq
  · exact Nat.ceil_add_one hq
  · have h1 : ⌈q⌉₊ = 0 := Nat.ceil_eq_zero.mpr hq.le
    have h2 : ⌈q + 1⌉₊ = 1 := by
      refine le_antisymm (Nat.ceil_le.mpr ?_) (Nat.ceil_pos.mpr ?_)
      · push_cast; linarith
      · linarith
    omega

theorem roadSegLoop_length (interp : ℚ → ℚ × ℚ) (total i : ℚ) (hi : 0 < i) :
    ∀ fuel (d : ℚ) segs, roadSegLoop interp total i fuel d = some segs →
      segs.length = ⌈(total - d) / i⌉₊ := by
  intro fuel
  induction fuel with
  | zero =>
    intro d segs h
    by_cases hd : d < total
    · simp [roadSegLoop, hd] at h
    · simp only [roadSegLoop, if_neg hd, Option.some.injEq] at h
      subst h
      simp only [List.length_nil]
      symm
      rw [Nat.ceil_eq_zero]
      apply div_nonpos_of_nonpos_of_nonneg _ hi.le
      linarith [not_lt.mp hd]
  | succ n ih =>
    intro d segs h
    by_cases hd : d < total
    · simp only [roadSegLoop, if_pos hd] at h
      rcases Option.map_eq_some'.mp h with ⟨rest, hr, hrest⟩
      subst hrest
      rw [List.length_cons, ih (d + i) rest hr]
      have key : (total - d) / i = (total - (d + i)) / i + 1 := by
        field_simp
        ring
      rw [key, natCeil_add_one_of]
      have hpos : 0 < (total - d) / i := div_pos (by linarith) hi
      rw [key] at hpos
      linarith
    · rw [roadSegLoop_stop interp total i (n + 1) d hd] at h
      cases h
      simp only [List.length_nil]
      symm
      rw [Nat.ceil_eq_zero]
      apply div_nonpos_of_nonpos_of_nonneg _ hi.le
      linarith [not_lt.mp hd]

/-! ### Claim C3 — Arc-Length Segmenter bookkeeping invariants -/

/-- C3: for every polyline (abstracted by its nonnegative total arc length and
interpolation function) and positive interval, a terminating run of
`create_road_segments_along_track` satisfies: the first segment starts at
distance 0, `end_distance[i] = start_distance[i+1]` for consecutive segments,
each segment's length equals `end_distance − start_distance`, and the lengths
sum to the total length (exactly, in this exact-arithmetic model); moreover a
terminating run exists. -/
theorem claim_C3 (interp : ℚ → ℚ × ℚ) (total i : ℚ) (fuel : ℕ)
    (segs : List TrackSegment) (hi : 0 < i) (ht : 0 ≤ total)
    (h : create_road_segments_along_track interp total i fuel = some segs) :
    (∀ s0, segs.head? = some s0 → s0.start_distance = 0) ∧
    List.Chain' (fun a b => a.end_distance = b.start_distance) segs ∧
    (∀ s ∈ segs, s.length = s.end_distance - s.start_distance) ∧
    (segs.map TrackSegment.length).sum = total ∧
    (∃ fuel2 segs2, create_road_segments_along_track interp total i fuel2 = some segs2) := by
  obtain ⟨hHead, hChain, hMem, hSum⟩ := roadSegLoop_props interp total i hi fuel 0 segs h
  refine ⟨hHead, hChain, fun s hs => (hMem s hs).1, ?_, ?_⟩
  · rw [hSum]
    by_cases h0 : (0 : ℚ) < total
    · rw [if_pos h0]; ring
    · rw [if_neg h0]; linarith
  · refine ⟨⌈total / i⌉₊, ?_⟩
    apply roadSegLoop_terminates interp total i hi
    calc total = total / i * i := (div_mul_cancel₀ total hi.ne').symm
    _ ≤ (⌈total / i⌉₊ : ℚ) * i := mul_le_mul_of_nonneg_right (Nat.le_ceil _) hi.le
    _ = 0 + (⌈total / i⌉₊ : ℚ) * i := by ring

/-- Witness for C3: a 250 m track at 100 m interval gives segments of
lengths 100, 100, 50 summing to 250. -/
theorem claim_C3_witness :
    (([⟨(0, 0), (0, 0), 100, 0, 100⟩, ⟨(0, 0), (0, 0), 100, 100, 200⟩,
      ⟨(0, 0), (0, 0), 50, 200, 250⟩] : List TrackSegment).map TrackSegment.length).sum
      = 250 :=
  (claim_C3 (fun _ => (0, 0)) 250 100 3
    [⟨(0, 0), (0, 0), 100, 0, 100⟩, ⟨(0, 0), (0, 0), 100, 100, 200⟩,
     ⟨(0, 0), (0, 0), 50, 200, 250⟩]
    (by norm_num) (by norm_num)
    (by norm_num [create_road_segments_along_track, roadSegLoop])).2.2.2.1

/-! ### Claim C6 — missing validation in the Arc-Length Segmenter -/

/-- C6 (claim: interval ≤ 0 or fewer than two points fails with a
GeometryError). The code has no such validation: at the failing input of a
positive-length polyline (total length 10) and `interval_meters = 0`, the
`while` loop never terminates — for every fuel bound the loop is still
running (`none`), and no error is ever raised. -/
theorem claim_C6 (interp : ℚ → ℚ × ℚ) (fuel : ℕ) :
    create_road_segments_along_track interp 10 0 fuel = none :=
  roadSegLoop_diverges interp 10 0 le_rfl fuel 0 (by norm_num)

/-! ### Claim C2 — segment-count agreement between the two subsystems -/

/-- C2 counterexample: a corridor whose offset polyline measures 150 m but
whose stake range K0+000–K1+280 spans 1280 m, both segmented at 100 m: the
Arc-Length Segmenter produces 2 segments while the Station Parser produces 13,
refuting the claim that the counts always match. -/
theorem claim_C2_counterexample :
    (create_road_segments_along_track (fun _ => (0, 0)) 150 100 2).map List.length
      = some 2 ∧
    (okSegments (parse_stake_range ("K0+000".toList) ("K1+280".toList) 100)).map
      List.length = some 13 ∧
    (2 : ℕ) ≠ 13 := by
  refine ⟨by norm_num [create_road_segments_along_track, roadSegLoop], by decide, by decide⟩

/-- C2 as amended: both subsystems use the same clamped-advance rule, so the
Arc-Length Segmenter produces ⌈L/interval⌉ segments for a polyline of total
length L and the Station Parser produces ⌈(end−start)/interval⌉ segments; the
two counts coincide exactly when those ceilings agree (as when L equals the
stake-range length), but not in general. -/
theorem claim_C2_amended (s e : PyStr) (k : ℤ) (sm em : ℕ)
    (interp : ℚ → ℚ × ℚ) (total : ℚ) (fuel : ℕ) (segs : List TrackSegment)
    (hs : stakeOffset (pyStrip s) = some sm)
    (he : stakeOffset (pyStrip e) = some em)
    (hlt : sm < em) (hk : 0 < k) (hki : k ≤ (em : ℤ) - (sm : ℤ))
    (h : create_road_segments_along_track interp total (k : ℚ) fuel = some segs) :
    segs.length = ⌈total / (k : ℚ)⌉₊ ∧
    (∀ l L, parse_stake_range s e k = .ok (l, L) →
      l.length = (em - sm + k.toNat - 1) / k.toNat) ∧
    (⌈total / (k : ℚ)⌉₊ = (em - sm + k.toNat - 1) / k.toNat →
      ∀ l L, parse_stake_range s e k = .ok (l, L) → segs.length = l.length) := by
  have hkq : (0 : ℚ) < (k : ℚ) := by exact_mod_cast hk
  have hkn : 0 < k.toNat := by omega
  have hlen : segs.length = ⌈total / (k : ℚ)⌉₊ := by
    have := roadSegLoop_length interp total (k : ℚ) hkq fuel 0 segs h
    rwa [sub_zero] at this
  have hplen : ∀ l L, parse_stake_range s e k = .ok (l, L) →
      l.length = (em - sm + k.toNat - 1) / k.toNat := by
    intro l L hok
    rw [parse_stake_range_valid s e k sm em hs he hlt hk hki] at hok
    have hl : l = (stakeBoundLoop (em - sm) k.toNat em sm).map
        (fun p => (formatStake p.1, formatStake p.2)) := by
      cases hok
      rfl
    rw [hl, List.length_map, stakeBoundLoop_length k.toNat em hkn _ _ (le_refl _)]
  refine ⟨hlen, hplen, ?_⟩
  intro hceil l L hok
  rw [hlen, hceil, hplen l L hok]

/-- Witness for the amended C2: a 1300 m polyline and the K0+000–K1+280 range
at 100 m interval produce 13 segments on both sides. -/
theorem claim_C2_witness :
    ((List.range 13).map (fun j =>
      (⟨(0, 0), (0, 0), 100, 100 * (j : ℚ), 100 * (j : ℚ) + 100⟩ : TrackSegment))).length
      = ⌈(1300 : ℚ) / ((100 : ℤ) : ℚ)⌉₊ :=
  (claim_C2_amended ("K0+000".toList) ("K1+280".toList) 100 0 1280
    (fun _ => (0, 0)) 1300 13
    ((List.range 13).map (fun j =>
      (⟨(0, 0), (0, 0), 100, 100 * (j : ℚ), 100 * (j : ℚ) + 100⟩ : TrackSegment)))
    (by decide) (by decide) (by decide) (by decide) (by decide) (by
      norm_num [create_road_segments_along_track, roadSegLoop, List.range_succ])).1

/-! ### Lemmas about the hierarchy assembler -/

theorem traceL3_map_l3 (l : List Level3Payload) : traceL3 (l.map Request.l3) = l := by
  induction l with
  | nil => rfl
  | cons p rest ih => simp [traceL3, List.filterMap_cons] at ih ⊢; exact ih

theorem traceL2_map_l3 (l : List Level3Payload) : traceL2 (l.map Request.l3) = [] := by
  induction l with
  | nil => rfl
  | cons p rest ih => simpa [traceL2, List.filterMap_cons] using ih

theorem processDirections_reqs (env : Env) (d : RoadData) (id2 : ℤ)
    (s e : PyStr) (idx : ℕ) :
    ∀ dirs i0, (processDirections env d id2 s e idx dirs i0).2.2 =
      (List.enumFrom i0 dirs).map (fun p => Request.l3
        (create_road_level3_payload env.direction_mapping d id2
          (if p.1 = 0 then s else e) (if p.1 = 0 then e else s) p.2.1 idx)) := by
  intro dirs
  induction dirs with
  | nil => intro i0; rfl
  | cons hd rest ih =>
    intro i0
    rcases hd with ⟨label, v⟩
    rcases hrec : processDirections env d id2 s e idx rest (i0 + 1) with ⟨ids, errs, reqs⟩
    have hreq : reqs = (List.enumFrom (i0 + 1) rest).map (fun p => Request.l3
        (create_road_level3_payload env.direction_mapping d id2
          (if p.1 = 0 then s else e) (if p.1 = 0 then e else s) p.2.1 idx)) := by
      have := ih (i0 + 1)
      rw [hrec] at this
      exact this
    simp only [processDirections, hrec]
    split <;> simp [hreq, List.enumFrom]

theorem NetErr_level3_not_level2 (er : NetErr) (h : er.isLevel3 = true) :
    er.isLevel2 = false := by
  cases er <;> simp [NetErr.isLevel2, NetErr.isLevel3] at h ⊢

theorem processDirections_counts (env : Env) (d : RoadData) (id2 : ℤ)
    (s e : PyStr) (idx : ℕ) :
    ∀ dirs i0, (processDirections env d id2 s e idx dirs i0).1.length +
        (processDirections env d id2 s e idx dirs i0).2.1.length = dirs.length ∧
      ∀ er ∈ (processDirections env d id2 s e idx dirs i0).2.1, er.isLevel3 = true := by
  intro dirs
  induction dirs with
  | nil => intro i0; exact ⟨rfl, by intro er her; simp [processDirections] at her⟩
  | cons hd rest ih =>
    intro i0
    rcases hd with ⟨label, v⟩
    rcases hrec : processDirections env d id2 s e idx rest (i0 + 1) with ⟨ids, errs, reqs⟩
    obtain ⟨ihLen, ihMem⟩ := ih (i0 + 1)
    rw [hrec] at ihLen ihMem
    simp only [processDirections, hrec]
    split
    · refine ⟨?_, ?_⟩
      · simp only [List.length_cons, List.length_cons]
        simp at ihLen ⊢
        omega
      · intro er her
        exact ihMem er her
    · refine ⟨?_, ?_⟩
      · simp only [List.length_cons]
        simp at ihLen ⊢
        omega
      · intro er her
        rcases List.mem_cons.mp her with rfl | her
        · rfl
        · exact ihMem er her

theorem traceL2_cons_l1 (p : Level1Payload) (tr : List Request) :
    traceL2 (.l1 p :: tr) = traceL2 tr := by
  simp [traceL2, List.filterMap_cons]

theorem traceL2_cons_l2 (p : Level2Payload) (tr : List Request) :
    traceL2 (.l2 p :: tr) = p :: traceL2 tr := by
  simp [traceL2, List.filterMap_cons]

theorem traceL2_append (a b : List Request) : traceL2 (a ++ b) = traceL2 a ++ traceL2 b := by
  simp [traceL2, List.filterMap_append]

theorem traceL3_cons_l2 (p : Level2Payload) (tr : List Request) :
    traceL3 (.l2 p :: tr) = traceL3 tr := by
  simp [traceL3, List.filterMap_cons]

theorem traceL3_cons_l1 (p : Level1Payload) (tr : List Request) :
    traceL3 (.l1 p :: tr) = traceL3 tr := by
  simp [traceL3, List.filterMap_cons]

theorem traceL3_append (a b : List Request) : traceL3 (a ++ b) = traceL3 a ++ traceL3 b := by
  simp [traceL3, List.filterMap_append]

theorem processSegments_spec (env : Env) (d : RoadData) (id1 : ℤ) :
    ∀ segs sidx,
      traceL2 (processSegments env d id1 segs sidx).2.2.2 =
        segs.map (fun p => create_road_level2_payload d id1 p.1 p.2) ∧
      (processSegments env d id1 segs sidx).1.length +
        ((processSegments env d id1 segs sidx).2.2.1.filter NetErr.isLevel2).length =
        segs.length ∧
      (∀ er ∈ (processSegments env d id1 segs sidx).2.2.1,
        er.isLevel2 = true ∨ er.isLevel3 = true) ∧
      (processSegments env d id1 segs sidx).2.1.length +
        ((processSegments env d id1 segs sidx).2.2.1.filter NetErr.isLevel3).length =
        (processSegments env d id1 segs sidx).1.length * d.drive_direction_values.length ∧
      (∀ p ∈ traceL3 (processSegments env d id1 segs sidx).2.2.2,
        p.ext3 = natDecimal (max 1 (d.lane_count / 2)) ∧
        p.width = d.road_width.getD 10 / 2) ∧
      (∀ q ∈ (processSegments env d id1 segs sidx).2.2.2, q.isL1 = false) := by
  intro segs
  induction segs with
  | nil =>
    intro sidx
    refine ⟨rfl, rfl, ?_, by simp [processSegments], ?_, ?_⟩ <;> intro x hx <;>
      simp [processSegments, traceL3, traceL2] at hx
  | cons sp rest ih =>
    intro sidx
    rcases sp with ⟨s0, e0⟩
    rcases hrec : processSegments env d id1 rest (sidx + 1) with ⟨l2s, l3s, errs, reqs⟩
    obtain ⟨ih1, ih2, ih3, ih4, ih5, ih6⟩ := ih (sidx + 1)
    rw [hrec] at ih1 ih2 ih3 ih4 ih5 ih6
    dsimp only at ih1 ih2 ih3 ih4 ih5 ih6
    simp only [processSegments, hrec]
    split
    next id2 henv2 =>
      rcases hdir : processDirections env d id2 s0 e0 (sidx - 1)
          d.drive_direction_values 0 with ⟨ids3, errs3, reqs3⟩
      have hreqs3 : reqs3 = ((List.enumFrom 0 d.drive_direction_values).map
          (fun p => create_road_level3_payload env.direction_mapping d id2
            (if p.1 = 0 then s0 else e0) (if p.1 = 0 then e0 else s0) p.2.1 (sidx - 1))).map
          Request.l3 := by
        have h0 := processDirections_reqs env d id2 s0 e0 (sidx - 1)
          d.drive_direction_values 0
        rw [hdir] at h0
        dsimp only at h0
        rw [h0, List.map_map]
        rfl
      have hcnts := processDirections_counts env d id2 s0 e0 (sidx - 1)
        d.drive_direction_values 0
      rw [hdir] at hcnts
      obtain ⟨hcnt3, hmem3⟩ := hcnts
      dsimp only at hcnt3 hmem3
      have herr3L2 : errs3.filter NetErr.isLevel2 = [] := by
        rw [List.filter_eq_nil]
        intro er her
        rw [NetErr_level3_not_level2 er (hmem3 er her)]
        simp
      have herr3L3 : errs3.filter NetErr.isLevel3 = errs3 := by
        rw [List.filter_eq_self]
        intro er her
        exact hmem3 er her
      dsimp only
      refine ⟨?_, ?_, ?_, ?_, ?_, ?_⟩
      · rw [traceL2_cons_l2, traceL2_append, hreqs3, traceL2_map_l3, ih1]
        rfl
      · rw [List.filter_append, herr3L2]
        simp only [List.length_cons, List.nil_append]
        omega
      · intro er her
        rcases List.mem_append.mp her with her | her
        · exact Or.inr (hmem3 er her)
        · exact ih3 er her
      · rw [List.filter_append, herr3L3]
        simp only [List.length_cons, List.length_append, Nat.succ_mul]
        omega
      · intro p hp
        rw [traceL3_cons_l2, traceL3_append] at hp
        rcases List.mem_append.mp hp with hp | hp
        · rw [hreqs3, traceL3_map_l3] at hp
          obtain ⟨a, _, rfl⟩ := List.mem_map.mp hp
          exact ⟨rfl, rfl⟩
        · exact ih5 p hp
      · intro q hq
        rcases List.mem_cons.mp hq with rfl | hq
        · rfl
        · rcases List.mem_append.mp hq with hq | hq
          · rw [hreqs3] at hq
            obtain ⟨a, _, rfl⟩ := List.mem_map.mp hq
            rfl
          · exact ih6 q hq
    next msg henv2 =>
      dsimp only
      refine ⟨?_, ?_, ?_, ?_, ?_, ?_⟩
      · rw [traceL2_cons_l2, ih1]
        rfl
      · simp only [List.filter_cons, NetErr.isLevel2, if_true, List.length_cons,
          Bool.true_eq, ite_true]
        omega
      · intro er her
        rcases List.mem_cons.mp her with rfl | her
        · exact Or.inl rfl
        · exact ih3 er her
      · simp only [List.filter_cons]
        have hf : NetErr.isLevel3 (.level2Failed s0 e0 msg) = false := rfl
        rw [hf]
        simp
        omega
      · intro p hp
        rw [traceL3_cons_l2] at hp
        exact ih5 p hp
      · intro q hq
        rcases List.mem_cons.mp hq with rfl | hq
        · rfl
        · exact ih6 q hq

/-! ### Claim C9 — partial failure containment in the assembler -/

/-- C9: if level-1 creation fails (and the name is not cached), the corridor's
assembly stops with exactly that error and no level-2/level-3 requests; once a
level-1 id is resolved (cached or created), every stake segment gets a level-2
request, failed segments and directions only add errors (all of level-2 or
level-3 kind) while processing continues, and the result lists every
successfully created id: level2 successes + level2 failures = segment count,
and level3 successes + level3 failures = created level2s × directions. -/
theorem claim_C9 (env : Env) (table : Level1Table) (d : RoadData) :
    (∀ msg, List.lookup d.name table = none →
      env.createLevel1 (create_road_level1_payload d) = .error msg →
      create_road_network env table d =
        (table, ⟨d.name, none, [], [], [.level1Failed msg]⟩,
          [.l1 (create_road_level1_payload d)])) ∧
    (∀ id1, (List.lookup d.name table = some id1 ∨
        (List.lookup d.name table = none ∧
          env.createLevel1 (create_road_level1_payload d) = .ok id1)) →
      ((create_road_network env table d).2.1.level1_id = some id1 ∧
       (traceL2 (create_road_network env table d).2.2).length =
         d.stake_segments.length ∧
       (create_road_network env table d).2.1.level2_ids.length +
         ((create_road_network env table d).2.1.errors.filter NetErr.isLevel2).length =
         d.stake_segments.length ∧
       (create_road_network env table d).2.1.level3_ids.length +
         ((create_road_network env table d).2.1.errors.filter NetErr.isLevel3).length =
         (create_road_network env table d).2.1.level2_ids.length *
           d.drive_direction_values.length ∧
       (∀ er ∈ (create_road_network env table d).2.1.errors,
         er.isLevel2 = true ∨ er.isLevel3 = true))) := by
  constructor
  · intro msg hnone herr
    simp [create_road_network, hnone, herr]
  · intro id1 hcase
    have spec := processSegments_spec env d id1 d.stake_segments 1
    rcases hps : processSegments env d id1 d.stake_segments 1 with ⟨l2s, l3s, errs, reqs⟩
    rw [hps] at spec
    dsimp only at spec
    obtain ⟨sp1, sp2, sp3, sp4, sp5, sp6⟩ := spec
    rcases hcase with hsome | ⟨hnone, hok⟩
    · simp only [create_road_network, hsome, hps]
      exact ⟨trivial, by rw [sp1, List.length_map], sp2, sp4, sp3⟩
    · simp only [create_road_network, hnone, hok, hps]
      refine ⟨trivial, ?_, sp2, sp4, sp3⟩
      rw [traceL2_cons_l1, sp1, List.length_map]

/-- Witness for C9: with a level-3 sink that always fails, both sample
segments still get level-2 nodes. -/
theorem claim_C9_witness :
    (create_road_network l3FailEnv [] sampleData).2.1.level2_ids.length +
      ((create_road_network l3FailEnv [] sampleData).2.1.errors.filter
        NetErr.isLevel2).length = 2 :=
  ((claim_C9 l3FailEnv [] sampleData).2 101 (Or.inr ⟨rfl, rfl⟩)).2.2.1

/-! ### Claim C4 — level-1 deduplication within a batch -/

/-- C4: if a run of the assembler resolves (creates or reuses) a level-1 id
for a corridor name, the dedup table afterwards maps that name to the id, and
a second run with the same name reuses the cached id: it emits no level-1
creation request at all, leaves the table unchanged, and reports the same
level-1 id; the first run itself emits at most one level-1 request. -/
theorem claim_C4 (env : Env) (table : Level1Table) (d1 d2 : RoadData) (i : ℤ)
    (hname : d2.name = d1.name)
    (h1 : ((create_road_network env table d1).2.1).level1_id = some i) :
    List.lookup d1.name (create_road_network env table d1).1 = some i ∧
    ((create_road_network env ((create_road_network env table d1).1) d2).2.1).level1_id
      = some i ∧
    (∀ q ∈ (create_road_network env ((create_road_network env table d1).1) d2).2.2,
      q.isL1 = false) ∧
    (create_road_network env ((create_road_network env table d1).1) d2).1 =
      (create_road_network env table d1).1 ∧
    ((create_road_network env table d1).2.2.countP Request.isL1) ≤ 1 := by
  cases hlk : List.lookup d1.name table with
  | some j =>
    rcases hps1 : processSegments env d1 j d1.stake_segments 1 with ⟨a2, a3, aerrs, areqs⟩
    have spec1 := processSegments_spec env d1 j d1.stake_segments 1
    rw [hps1] at spec1
    dsimp only at spec1
    simp only [create_road_network, hlk, hps1] at h1 ⊢
    cases h1
    rcases hps2 : processSegments env d2 i d2.stake_segments 1 with ⟨b2, b3, berrs, breqs⟩
    have spec2 := processSegments_spec env d2 i d2.stake_segments 1
    rw [hps2] at spec2
    dsimp only at spec2
    simp only [hname, hlk, hps2]
    refine ⟨trivial, trivial, spec2.2.2.2.2.2, trivial, ?_⟩
    rw [List.countP_eq_zero.mpr ?_]
    · omega
    · intro q hq
      simp [spec1.2.2.2.2.2 q hq]
  | none =>
    cases henv1 : env.createLevel1 (create_road_level1_payload d1) with
    | error msg =>
      simp only [create_road_network, hlk, henv1] at h1
      cases h1
    | ok idv =>
      rcases hps1 : processSegments env d1 idv d1.stake_segments 1 with ⟨a2, a3, aerrs, areqs⟩
      have spec1 := processSegments_spec env d1 idv d1.stake_segments 1
      rw [hps1] at spec1
      dsimp only at spec1
      simp only [create_road_network, hlk, henv1, hps1] at h1 ⊢
      cases h1
      have hlk2 : List.lookup d1.name ((d1.name, i) :: table) = some i := by
        simp [List.lookup]
      rcases hps2 : processSegments env d2 i d2.stake_segments 1 with ⟨b2, b3, berrs, breqs⟩
      have spec2 := processSegments_spec env d2 i d2.stake_segments 1
      rw [hps2] at spec2
      dsimp only at spec2
      simp only [hname, hlk2, hps2]
      refine ⟨trivial, trivial, spec2.2.2.2.2.2, trivial, ?_⟩
      simp only [List.countP_cons]
      rw [List.countP_eq_zero.mpr ?_]
      · simp [Request.isL1]
      · intro q hq
        simp [spec1.2.2.2.2.2 q hq]

/-- Witness for C4: two sample runs with the same corridor name share the
level-1 id 101. -/
theorem claim_C4_witness :
    ((create_road_network okEnv ((create_road_network okEnv [] sampleData).1)
      sampleData).2.1).level1_id = some 101 :=
  (claim_C4 okEnv [] sampleData sampleData 101 rfl (by decide)).2.1

/-! ### Claim C7 — the length in the level-2 payload -/

/-- C7 counterexample: for the final remainder segment K1+200–K1+280 (80 m)
of the sample corridor configured with interval 100, the level-2 payload's
`length` field is 100 — the configured interval — not the segment's own 80 m
station length, refuting the claim. -/
theorem claim_C7_counterexample :
    (create_road_level2_payload sampleData 1 ("K1+200".toList) ("K1+280".toList)).length
      = 100 ∧
    stakeOffset ("K1+280".toList) = some 1280 ∧
    stakeOffset ("K1+200".toList) = some 1200 ∧
    (100 : ℤ) ≠ 1280 - 1200 := by
  decide

/-- C7 as amended: every level-2 creation request of one corridor's assembly
carries `road_data.get("interval", 100)` — the configured interval, or the
default 100 when absent — as its `length`, for every segment including the
final remainder; the level-2 payloads are exactly the per-segment payload
builds, in segment order. -/
theorem claim_C7_amended (env : Env) (table : Level1Table) (d : RoadData) (id1 : ℤ)
    (h : List.lookup d.name table = some id1 ∨
      (List.lookup d.name table = none ∧
        env.createLevel1 (create_road_level1_payload d) = .ok id1)) :
    traceL2 (create_road_network env table d).2.2 =
      d.stake_segments.map (fun p => create_road_level2_payload d id1 p.1 p.2) ∧
    ∀ p ∈ traceL2 (create_road_network env table d).2.2,
      p.length = d.interval.getD 100 := by
  have spec := processSegments_spec env d id1 d.stake_segments 1
  rcases hps : processSegments env d id1 d.stake_segments 1 with ⟨l2s, l3s, errs, reqs⟩
  rw [hps] at spec
  dsimp only at spec
  obtain ⟨sp1, -, -, -, -, -⟩ := spec
  have key : traceL2 (create_road_network env table d).2.2 =
      d.stake_segments.map (fun p => create_road_level2_payload d id1 p.1 p.2) := by
    rcases h with hsome | ⟨hnone, hok⟩
    · simp only [create_road_network, hsome, hps]
      exact sp1
    · simp only [create_road_network, hnone, hok, hps]
      rw [traceL2_cons_l1]
      exact sp1
  refine ⟨key, ?_⟩
  intro p hp
  rw [key] at hp
  obtain ⟨a, -, rfl⟩ := List.mem_map.mp hp
  rfl

/-- Witness for the amended C7: the sample corridor's two level-2 payloads. -/
theorem claim_C7_witness :
    traceL2 (create_road_network okEnv [] sampleData).2.2 =
      sampleData.stake_segments.map
        (fun p => create_road_level2_payload sampleData 101 p.1 p.2) :=
  (claim_C7_amended okEnv [] sampleData 101 (Or.inr ⟨rfl, rfl⟩)).1

/-! ### Claim C8 — level-3 lane count, width and station-bound order -/

/-- C8: every level-3 creation request of a corridor's assembly carries lane
count `max(1, lane_count // 2)` (rendered into `ext3`) and width equal to half
the corridor width; within the direction loop of one segment, the emitted
level-3 payloads follow dict order with the segment's own (start, end) bounds
for the first direction label and swapped (end, start) bounds for every later
one; in particular the sample corridor with lane_count = 3 gets level-3 lane
count 1. -/
theorem claim_C8 (env : Env) (table : Level1Table) (d : RoadData) :
    (∀ p ∈ traceL3 (create_road_network env table d).2.2,
      p.ext3 = natDecimal (max 1 (d.lane_count / 2)) ∧
      p.width = d.road_width.getD 10 / 2) ∧
    (∀ (id2 : ℤ) (s e : PyStr) (idx : ℕ),
      traceL3 (processDirections env d id2 s e idx d.drive_direction_values 0).2.2 =
        (List.enumFrom 0 d.drive_direction_values).map
          (fun p => create_road_level3_payload env.direction_mapping d id2
            (if p.1 = 0 then s else e) (if p.1 = 0 then e else s) p.2.1 idx)) ∧
    (create_road_level3_payload env.direction_mapping sampleData 7 ("K1+100".toList)
      ("K1+200".toList) ("东侧".toList) 0).ext3 = "1".toList := by
  refine ⟨?_, ?_, rfl⟩
  · intro p hp
    rcases hlk : List.lookup d.name table with _ | j
    · rcases henv1 : env.createLevel1 (create_road_level1_payload d) with msg | idv
      · simp only [create_road_network, hlk, henv1] at hp
        simp [traceL3] at hp
      · have spec := processSegments_spec env d idv d.stake_segments 1
        rcases hps : processSegments env d idv d.stake_segments 1 with ⟨l2s, l3s, errs, reqs⟩
        rw [hps] at spec
        dsimp only at spec
        simp only [create_road_network, hlk, henv1, hps] at hp
        rw [traceL3_cons_l1] at hp
        exact spec.2.2.2.2.1 p hp
    · have spec := processSegments_spec env d j d.stake_segments 1
      rcases hps : processSegments env d j d.stake_segments 1 with ⟨l2s, l3s, errs, reqs⟩
      rw [hps] at spec
      dsimp only at spec
      simp only [create_road_network, hlk, hps] at hp
      exact spec.2.2.2.2.1 p hp
  · intro id2 s e idx
    rcases hdir : processDirections env d id2 s e idx d.drive_direction_values 0
      with ⟨ids3, errs3, reqs3⟩
    have h0 := processDirections_reqs env d id2 s e idx d.drive_direction_values 0
    rw [hdir] at h0
    dsimp only at h0 ⊢
    rw [h0]
    have hcomp : (fun p : ℕ × (PyStr × PyStr) => Request.l3
        (create_road_level3_payload env.direction_mapping d id2
          (if p.1 = 0 then s else e) (if p.1 = 0 then e else s) p.2.1 idx)) =
      Request.l3 ∘ (fun p : ℕ × (PyStr × PyStr) =>
        create_road_level3_payload env.direction_mapping d id2
          (if p.1 = 0 then s else e) (if p.1 = 0 then e else s) p.2.1 idx) := rfl
    rw [hcomp, ← List.map_map, traceL3_map_l3]

/-- Witness for C8: the sample corridor's direction loop for its first
segment. -/
theorem claim_C8_witness :
    traceL3 (processDirections okEnv sampleData 7 ("K1+100".toList) ("K1+200".toList) 0
        sampleData.drive_direction_values 0).2.2 =
      (List.enumFrom 0 sampleData.drive_direction_values).map
        (fun p => create_road_level3_payload okEnv.direction_mapping sampleData 7
          (if p.1 = 0 then "K1+100".toList else "K1+200".toList)
          (if p.1 = 0 then "K1+200".toList else "K1+100".toList) p.2.1 0) :=
  (claim_C8 okEnv [] sampleData).2.1 7 ("K1+100".toList) ("K1+200".toList) 0

/-! ### Claim C10 — row accounting in the import loop -/

theorem importRows_spec (env : Env) :
    ∀ (rows : List (Except PyStr RoadData)) (table : Level1Table) (idx : ℕ),
      (importRows env rows table idx).2.1 + (importRows env rows table idx).2.2.1 =
        rows.length ∧
      (importRows env rows table idx).2.1 =
        (importRows env rows table idx).2.2.2.1.countP (fun nr => nr.errors.isEmpty) ∧
      (importRows env rows table idx).2.2.1 =
        rows.countP (fun row => ! exceptIsOk row) +
        (importRows env rows table idx).2.2.2.1.countP (fun nr => ! nr.errors.isEmpty) ∧
      (importRows env rows table idx).2.2.2.1.length = rows.countP exceptIsOk := by
  intro rows
  induction rows with
  | nil => intro table idx; exact ⟨rfl, rfl, rfl, rfl⟩
  | cons row rest ih =>
    intro table idx
    cases row with
    | error e =>
      rcases hrec : importRows env rest table (idx + 1) with ⟨t, p, f, rs, es⟩
      obtain ⟨ih1, ih2, ih3, ih4⟩ := ih table (idx + 1)
      rw [hrec] at ih1 ih2 ih3 ih4
      dsimp only at ih1 ih2 ih3 ih4
      simp only [importRows, hrec]
      refine ⟨?_, ih2, ?_, ?_⟩
      · simp only [List.length_cons]
        omega
      · simp [List.countP_cons, exceptIsOk] at ih3 ⊢
        omega
      · simp [List.countP_cons, exceptIsOk] at ih4 ⊢
        omega
    | ok dta =>
      rcases hcn : create_road_network env table dta with ⟨table1, rr, tr⟩
      rcases hrec : importRows env rest table1 (idx + 1) with ⟨t, p, f, rs, es⟩
      obtain ⟨ih1, ih2, ih3, ih4⟩ := ih table1 (idx + 1)
      rw [hrec] at ih1 ih2 ih3 ih4
      dsimp only at ih1 ih2 ih3 ih4
      simp only [importRows, hcn, hrec]
      by_cases herr : rr.errors.isEmpty
      · rw [if_pos herr]
        refine ⟨?_, ?_, ?_, ?_⟩
        · simp only [List.length_cons]
          omega
        · simp [List.countP_cons, herr] at ih2 ⊢
          omega
        · simp [List.countP_cons, exceptIsOk, herr] at ih3 ⊢
          omega
        · simp [List.countP_cons, exceptIsOk] at ih4 ⊢
          omega
      · rw [if_neg herr]
        refine ⟨?_, ?_, ?_, ?_⟩
        · simp only [List.length_cons]
          omega
        · simp [List.countP_cons, herr] at ih2 ⊢
          omega
        · simp [List.countP_cons, exceptIsOk, herr] at ih3 ⊢
          omega
        · simp [List.countP_cons, exceptIsOk] at ih4 ⊢
          omega

/-- C10: over any import run, each row is counted in exactly one of
processed_rows and failed_rows, so they sum to total_rows; a row counts as
processed exactly when its network result has an empty error list, and as
failed when its data processing raised or its result carries any error — in
particular a sample run whose only failure is one level-3 direction (level-1
and both level-2 nodes created) is counted entirely in failed_rows. -/
theorem claim_C10 (env : Env) (rows : List (Except PyStr RoadData)) :
    (process_country_road_import env rows).total_rows = rows.length ∧
    (process_country_road_import env rows).processed_rows +
      (process_country_road_import env rows).failed_rows = rows.length ∧
    (process_country_road_import env rows).processed_rows =
      (process_country_road_import env rows).road_results.countP
        (fun nr => nr.errors.isEmpty) ∧
    (process_country_road_import env rows).failed_rows =
      rows.countP (fun row => ! exceptIsOk row) +
      (process_country_road_import env rows).road_results.countP
        (fun nr => ! nr.errors.isEmpty) ∧
    (process_country_road_import env rows).road_results.length =
      rows.countP exceptIsOk ∧
    ((process_country_road_import l3FailEnv [.ok sampleData]).processed_rows = 0 ∧
     (process_country_road_import l3FailEnv [.ok sampleData]).failed_rows = 1 ∧
     (process_country_road_import l3FailEnv [.ok sampleData]).road_results.map
       (fun nr => (nr.level1_id, nr.level2_ids.length)) = [(some 101, 2)]) := by
  have spec := importRows_spec env rows [] 0
  rcases him : importRows env rows [] 0 with ⟨t, p, f, rs, es⟩
  rw [him] at spec
  dsimp only at spec
  obtain ⟨sp1, sp2, sp3, sp4⟩ := spec
  simp only [process_country_road_import, him]
  refine ⟨trivial, sp1, sp2, sp3, sp4, by decide, by decide, by decide⟩
